import Mathlib

/-!
Verification development for the `chefs-embedded-form` repository: a shallow
embedding of its JavaScript glue code (CHEFS API client, component loader,
form store, version-comparison polyfill, Vite proxy configuration) together
with theorems settling the specification claims about it.

JavaScript conventions modelled explicitly:
  * nullable values are `Option`;
  * string truthiness (`if (s)`) is "non-empty";
  * `Map` / plain-object dictionaries are association lists with
    insertion-order iteration and key-replacing `set`;
  * network responses and script side effects are oracle parameters, and
    the HTTP requests a function issues are returned as an explicit trace.
-/

namespace ChefsEmbed

/-! ## JavaScript value and string primitives -/

/-- A JavaScript value as far as the polyfill's inputs are concerned:
`null`, `undefined`, strings, (integer) numbers and booleans. -/
inductive JSVal where
  | null
  | undef
  | str (s : String)
  | num (n : Int)
  | bool (b : Bool)
deriving DecidableEq, Repr

/-- `a == null` in JavaScript: true exactly for `null` and `undefined`. -/
def JSVal.isNullish : JSVal → Bool
  | .null => true
  | .undef => true
  | _ => false

/-- `String(v)` for the values of `JSVal`. -/
def jsToString : JSVal → String
  | .null => "null"
  | .undef => "undefined"
  | .str s => s
  | .num n => toString n
  | .bool b => if b then "true" else "false"

/-- Truthiness of a nullable string (`if (x)` in JavaScript):
false for `null`/`undefined` and for the empty string. -/
def jsTruthyStr : Option String → Bool
  | none => false
  | some s => !(s == "")

/-- `v || d` for a nullable string `v`: the fallback fires on
`null`/`undefined` and on the empty string. -/
def jsOrStr (v : Option String) (d : String) : String :=
  match v with
  | none => d
  | some s => if s == "" then d else s

/-- Does the character list start with the given pattern? -/
def startsWithList : List Char → List Char → Bool
  | _, [] => true
  | [], _ :: _ => false
  | a :: as, b :: bs => a == b && startsWithList as bs

/-- Does the character list contain the pattern as a contiguous run?
Embeds JavaScript `String.prototype.includes`. -/
def hasSubList (pat : List Char) : List Char → Bool
  | [] => startsWithList [] pat
  | c :: cs => startsWithList (c :: cs) pat || hasSubList pat cs

/-- `s.includes(pat)` on strings. -/
def strIncludes (s pat : String) : Bool :=
  hasSubList pat.data s.data

/-- `s.startsWith(pat)` on strings. -/
def strStartsWith (s pat : String) : Bool :=
  startsWithList s.data pat.data

/-! ## Association-list maps (JavaScript `Map` / plain objects) -/

/-- First-match lookup, JavaScript `map.get(k)`. -/
def lookupL {α : Type} (l : List (String × α)) (k : String) : Option α :=
  match l with
  | [] => none
  | (k', v) :: t => if k' == k then some v else lookupL t k

/-- Key-replacing insert, JavaScript `map.set(k, v)`: overwrites the
existing entry in place, otherwise appends. -/
def setE {α : Type} (l : List (String × α)) (k : String) (v : α) : List (String × α) :=
  match l with
  | [] => [(k, v)]
  | (k', v') :: t => if k' == k then (k, v) :: t else (k', v') :: setE t k v

/-- `map.delete(k)`: removes the entry with the given key, if any. -/
def eraseK {α : Type} (l : List (String × α)) (k : String) : List (String × α) :=
  match l with
  | [] => []
  | (k', v') :: t => if k' == k then t else (k', v') :: eraseK t k

/-! ## The `compareVersions` polyfill (src/utils/compareVersionsPolyfill.js) -/

/-- Character-level split on a separator; embeds JavaScript
`String.prototype.split` with a single-character separator
(`"".split(sep)` is `[""]`, empty segments are kept). -/
def splitOnSep (sep : Char) : List Char → List (List Char)
  | [] => [[]]
  | c :: cs =>
    let rest := splitOnSep sep cs
    if c == sep then [] :: rest
    else
      match rest with
      | h :: t => (c :: h) :: t
      | [] => [[c]]

/-- Maximal run of leading decimal digits. -/
def takeDigits : List Char → List Char
  | [] => []
  | c :: cs => if c.isDigit then c :: takeDigits cs else []

/-- Accumulate a digit run into a natural number. -/
def digitsToNat : List Char → Nat → Nat
  | [], acc => acc
  | c :: cs, acc => digitsToNat cs (acc * 10 + (c.toNat - '0'.toNat))

/-- JavaScript `parseInt(s, 10)`: skip leading whitespace, an optional
sign, then the maximal digit run; `none` models `NaN` (no digits). -/
def parseInt10 (cs : List Char) : Option Int :=
  let cs1 := cs.dropWhile (fun c => c.isWhitespace)
  match cs1 with
  | '-' :: t =>
    let ds := takeDigits t
    if ds.isEmpty then none else some (-(Int.ofNat (digitsToNat ds 0)))
  | '+' :: t =>
    let ds := takeDigits t
    if ds.isEmpty then none else some (Int.ofNat (digitsToNat ds 0))
  | t =>
    let ds := takeDigits t
    if ds.isEmpty then none else some (Int.ofNat (digitsToNat ds 0))

/-- One dot-separated part mapped through
`const num = parseInt(part, 10); return isNaN(num) ? 0 : num;`. -/
def toIntPart (part : List Char) : Int :=
  match parseInt10 part with
  | none => 0
  | some n => n

/-- The comparison loop `for (let i = 0; i < maxLength; i++)` of the
polyfill, with `aParts[i] || 0` read as "missing index gives 0". -/
def cmpIdx (aParts bParts : List Int) (i : Nat) : Nat → Int
  | 0 => 0
  | fuel + 1 =>
    let aPart := aParts.getD i 0
    let bPart := bParts.getD i 0
    if aPart > bPart then 1
    else if aPart < bPart then -1
    else cmpIdx aParts bParts (i + 1) fuel

/-- The string-level body of `compareVersions` (after the nullish guards
and the `String(...)` conversions): empty-string guards, dot-split,
`parseInt` per part, positional loop. -/
def compareVersionStrings (versionA versionB : String) : Int :=
  if (versionA == "") && (versionB == "") then 0
  else if versionA == "" then -1
  else if versionB == "" then 1
  else
    let aParts := (splitOnSep '.' versionA.data).map toIntPart
    let bParts := (splitOnSep '.' versionB.data).map toIntPart
    cmpIdx aParts bParts 0 (max aParts.length bParts.length)

/-- `compareVersions(a, b)` from the polyfill, over `JSVal` inputs. -/
def compareVersions (a b : JSVal) : Int :=
  if a.isNullish && b.isNullish then 0
  else if a.isNullish then -1
  else if b.isNullish then 1
  else compareVersionStrings (jsToString a) (jsToString b)

/-! ## CHEFS API client (src/services/chefsApi.js)

Network effects are explicit: every operation returns, besides its result,
the list of HTTP requests it issues; remote responses enter as oracle
parameters of type `Except JsError _`. -/

/-- HTTP method of a request issued by the client. -/
inductive Method where
  | get
  | post
  | delete
deriving DecidableEq, Repr

/-- An HTTP request issued by the client (relative to the client base URL). -/
structure Request where
  method : Method
  url : String
deriving DecidableEq, Repr

/-- A browser `File` object, as far as the client reads it. -/
structure JsFile where
  name : String
  size : Nat
  type : String
deriving DecidableEq, Repr

/-- A JavaScript `Error`: the client only ever reads `.message`. -/
structure JsError where
  message : String
deriving DecidableEq, Repr

/-- The entry stored in `pendingUploads`: the file plus the options the
caller passed (`{ file, config }`). -/
structure PendingUpload where
  file : JsFile
  config : List (String × String)
deriving DecidableEq, Repr

/-- The server's response body for a successful `POST /files`. -/
structure UploadResult where
  id : String
deriving DecidableEq, Repr

/-- The file-operation state of the `ChefsApi` singleton:
`pendingUploads` (a `Map`), `pendingDeletes` (a `Set`, kept as a
duplicate-free list) and `uploadedFiles` (a `Map`). -/
structure FileState where
  pendingUploads : List (String × PendingUpload)
  pendingDeletes : List String
  uploadedFiles : List (String × UploadResult)
deriving Repr

/-- The descriptor `uploadFile` resolves with for FormIO. -/
structure UploadDescriptor where
  storage : String
  name : String
  size : Nat
  type : String
  url : String
  dataId : String
  dataStorage : String
deriving DecidableEq, Repr

/-- `uploadFile(file, options)`: queues the file under a fresh temporary id
and issues no HTTP request. `Date.now()` and the random suffix enter as the
parameters `now` and `rand`. -/
def uploadFile (now : Nat) (rand : String) (file : JsFile)
    (options : List (String × String)) (s : FileState) :
    FileState × UploadDescriptor × List Request :=
  let tempId := "temp_" ++ toString now ++ "_" ++ rand
  ({ s with pendingUploads := setE s.pendingUploads tempId ⟨file, options⟩ },
   { storage := "chefs", name := file.name, size := file.size,
     type := file.type, url := "/files/" ++ tempId,
     dataId := tempId, dataStorage := "chefs" },
   [])

/-- `_actualUploadFile(file, config)`: issues `POST /files` with the file as
multipart form data; the response is the oracle `resp`. -/
def actualUploadFile (resp : Except JsError UploadResult) (file : JsFile)
    (config : List (String × String)) :
    Except JsError UploadResult × List Request :=
  (resp, [⟨.post, "/files"⟩])

/-- What `getFile` resolves with. -/
inductive GetFileOutcome where
  | temp (file : JsFile)
  | fetched (body : String)
deriving DecidableEq, Repr

/-- `getFile(fileId, options)`: a `temp_`-prefixed id is served from
`pendingUploads` without any request; otherwise `GET /files/{fileId}` is
issued (the request goes out whether or not the response is an error). -/
def getFile (fileId : String) (resp : Except JsError String) (s : FileState) :
    Except JsError GetFileOutcome × List Request :=
  if strStartsWith fileId "temp_" then
    match lookupL s.pendingUploads fileId with
    | some uploadData => (.ok (.temp uploadData.file), [])
    | none => (.error ⟨"Temp file not found"⟩, [])
  else
    (match resp with
     | .ok body => .ok (.fetched body)
     | .error e => .error e,
     [⟨.get, "/files/" ++ fileId⟩])

/-- `_actualDeleteFile(fileId)`: issues `DELETE /files/{fileId}`. -/
def actualDeleteFile (resp : Except JsError Unit) (fileId : String) :
    Except JsError Unit × List Request :=
  (resp, [⟨.delete, "/files/" ++ fileId⟩])

/-- `deleteFile(fileId)` for a plain string id (the object-unwrapping
branch is the identity on strings): a temp id is dropped from
`pendingUploads`; a real id is added to the `pendingDeletes` set.
No HTTP request is issued. -/
def deleteFile (fileId : String) (s : FileState) : FileState × List Request :=
  if strStartsWith fileId "temp_" then
    ({ s with pendingUploads := eraseK s.pendingUploads fileId }, [])
  else
    ({ s with pendingDeletes :=
        if s.pendingDeletes.contains fileId then s.pendingDeletes
        else s.pendingDeletes ++ [fileId] }, [])

/-- Type of an entry of `results.errors`. -/
inductive OpErrorType where
  | upload
  | delete
deriving DecidableEq, Repr

/-- An entry of `results.errors` in `processPendingFileOperations`. -/
structure OpError where
  type : OpErrorType
  tempId : Option String
  fileId : Option String
  fileName : Option String
  error : String
deriving DecidableEq, Repr

/-- The `results` record built by `processPendingFileOperations`. -/
structure OpResults where
  uploads : List (String × UploadResult)
  deletes : List String
  errors : List OpError
deriving Repr

/-- The upload loop of `processPendingFileOperations`: for each queued
entry `_actualUploadFile` is attempted (its outcome given by the oracle
`upO`); successes are recorded in `results.uploads` and `uploadedFiles`,
failures become `results.errors` entries. Returns
(`results.uploads`, updated `uploadedFiles`, `results.errors` entries,
issued requests). -/
def runUploads (upO : String → PendingUpload → Except JsError UploadResult) :
    List (String × PendingUpload) → List (String × UploadResult) →
    List (String × UploadResult) × List (String × UploadResult) ×
      List OpError × List Request
  | [], uploadedFiles => ([], uploadedFiles, [], [])
  | (tempId, uploadData) :: rest, uploadedFiles =>
    let attempt := actualUploadFile (upO tempId uploadData)
      uploadData.file uploadData.config
    match attempt.1 with
    | .ok result =>
      let r := runUploads upO rest (setE uploadedFiles tempId result)
      ((tempId, result) :: r.1, r.2.1, r.2.2.1, attempt.2 ++ r.2.2.2)
    | .error e =>
      let r := runUploads upO rest uploadedFiles
      (r.1, r.2.1,
       { type := .upload, tempId := some tempId, fileId := none,
         fileName := some uploadData.file.name, error := e.message } :: r.2.2.1,
       attempt.2 ++ r.2.2.2)

/-- The delete loop of `processPendingFileOperations`: for each queued id
`_actualDeleteFile` is attempted (oracle `delO`); successes are recorded in
`results.deletes`, failures become `results.errors` entries. Returns
(`results.deletes`, `results.errors` entries, issued requests). -/
def runDeletes (delO : String → Except JsError Unit) :
    List String → List String × List OpError × List Request
  | [] => ([], [], [])
  | fileId :: rest =>
    let attempt := actualDeleteFile (delO fileId) fileId
    match attempt.1 with
    | .ok _ =>
      let r := runDeletes delO rest
      (fileId :: r.1, r.2.1, attempt.2 ++ r.2.2)
    | .error e =>
      let r := runDeletes delO rest
      (r.1,
       { type := .delete, tempId := none, fileId := some fileId,
         fileName := none, error := e.message } :: r.2.1,
       attempt.2 ++ r.2.2)

/-- `processPendingFileOperations()`: runs every queued upload, then every
queued delete, collecting per-item failures into `results.errors` instead of
throwing, and finally clears both queues. -/
def processPendingFileOperations
    (upO : String → PendingUpload → Except JsError UploadResult)
    (delO : String → Except JsError Unit) (s : FileState) :
    FileState × OpResults × List Request :=
  let u := runUploads upO s.pendingUploads s.uploadedFiles
  let d := runDeletes delO s.pendingDeletes
  ({ pendingUploads := [], pendingDeletes := [], uploadedFiles := u.2.1 },
   { uploads := u.1, deletes := d.1, errors := u.2.2.1 ++ d.2.1 },
   u.2.2.2 ++ d.2.2)

/-! ### Form operations -/

/-- The `formModuleVersion` payload the store reads `externalUris` from. -/
structure FormModuleVersion where
  externalUris : List String
deriving DecidableEq, Repr

/-- One entry of the `formModuleVersions` response array. -/
structure ModuleVersionEntry where
  formModuleVersion : FormModuleVersion
deriving DecidableEq, Repr

/-- `getFormModuleVersions(formId, formVersionId)`: issues one GET request
and returns the response body unchanged (errors are rethrown). -/
def getFormModuleVersions (formId formVersionId : String)
    (resp : Except JsError (List ModuleVersionEntry)) :
    Except JsError (List ModuleVersionEntry) × List Request :=
  (resp,
   [⟨.get, "/forms/" ++ formId ++ "/versions/" ++ formVersionId ++
      "/formModuleVersions"⟩])

/-- A FormIO schema object; its internal shape is irrelevant to the claims,
so it is carried opaquely. -/
structure FormSchema where
  tag : String
deriving DecidableEq, Repr

/-- An element of the `versions` array in the form metadata response. -/
structure ChefsVersion where
  schema : Option FormSchema
deriving DecidableEq, Repr

/-- The response body of `GET /forms/{formId}/version`: form metadata that
may carry a `versions` array; all other fields are opaque (`rest`). -/
structure ChefsFormData where
  versions : Option (List ChefsVersion)
  rest : String
deriving DecidableEq, Repr

/-- What `getFormSchema` resolves with: either the schema extracted from
`versions[0].schema`, or the raw response body. -/
inductive SchemaResult where
  | fromVersion (schema : FormSchema)
  | raw (formData : ChefsFormData)
deriving DecidableEq, Repr

/-- The extraction step of `getFormSchema`: if the body has a non-empty
`versions` array whose first element has a truthy `schema`, return that
schema; otherwise fall back to the raw body. -/
def extractFormSchema (formData : ChefsFormData) : SchemaResult :=
  match formData.versions with
  | some (version :: _) =>
    match version.schema with
    | some schema => .fromVersion schema
    | none => .raw formData
  | _ => .raw formData

/-- `getFormSchema(formId)`: issues `GET /forms/{formId}/version` and
applies the extraction step to a successful body. -/
def getFormSchema (formId : String) (resp : Except JsError ChefsFormData) :
    Except JsError SchemaResult × List Request :=
  (match resp with
   | .ok formData => .ok (extractFormSchema formData)
   | .error e => .error e,
   [⟨.get, "/forms/" ++ formId ++ "/version"⟩])

/-- The store's call site `chefsApi.getFormSchema(formId, formVersionId)`
passes two arguments to a one-parameter function; JavaScript drops the
extra argument, which this wrapper makes explicit. -/
def getFormSchemaCalled (formId formVersionId : String)
    (resp : Except JsError ChefsFormData) :
    Except JsError SchemaResult × List Request :=
  getFormSchema formId resp

/-! ### Authentication interceptors -/

/-- The base64 alphabet used by `btoa`. -/
def base64Table : List Char :=
  "ABCDEFGHIJKLMNOPQRSTUVWXYZabcdefghijklmnopqrstuvwxyz0123456789+/".data

/-- One base64 output character. -/
def b64Char (n : Nat) : Char := base64Table.getD n '='

/-- base64-encode a byte list, three bytes per four output characters,
`=`-padded. -/
def btoaBytes : List Nat → List Char
  | [] => []
  | [b1] => [b64Char (b1 / 4), b64Char (b1 % 4 * 16), '=', '=']
  | [b1, b2] =>
    [b64Char (b1 / 4), b64Char (b1 % 4 * 16 + b2 / 16),
     b64Char (b2 % 16 * 4), '=']
  | b1 :: b2 :: b3 :: rest =>
    b64Char (b1 / 4) :: b64Char (b1 % 4 * 16 + b2 / 16) ::
      b64Char (b2 % 16 * 4 + b3 / 64) :: b64Char (b3 % 64) :: btoaBytes rest

/-- Browser `btoa` on a latin-1 string (character codes below 256). -/
def btoa (s : String) : String :=
  ⟨btoaBytes (s.data.map Char.toNat)⟩

/-- The request headers the interceptors touch. -/
structure Headers where
  authorization : Option String
  xApiKey : Option String
deriving DecidableEq, Repr

/-- The string under a nullable token (used only when the token is truthy). -/
def tokenValue : Option String → String
  | some t => t
  | none => ""

/-- The shared interceptor body: a truthy bearer token wins; otherwise, if
both the API key and the form id are truthy, Basic auth over
`formId:apiKey` is attached together with `X-API-KEY`. -/
def applyAuthHeaders (authToken : Option String) (formId apiKey : String)
    (h : Headers) : Headers :=
  if jsTruthyStr authToken then
    { h with authorization := some ("Bearer " ++ tokenValue authToken) }
  else if !(apiKey == "") && !(formId == "") then
    { h with
      authorization := some ("Basic " ++ btoa (formId ++ ":" ++ apiKey)),
      xApiKey := some apiKey }
  else h

/-- The main API client's request interceptor: always applies the auth
headers. -/
def mainAuthInterceptor (authToken : Option String) (formId apiKey : String)
    (h : Headers) : Headers :=
  applyAuthHeaders authToken formId apiKey h

/-- `authRoutes.some(route => config.url?.includes(route))` with
`authRoutes = ['/files', '/submissions']`; an absent URL matches nothing. -/
def fileRouteRequiresAuth (url : Option String) : Bool :=
  match url with
  | none => false
  | some u => strIncludes u "/files" || strIncludes u "/submissions"

/-- The file client's request interceptor: attaches the auth headers only
when the request URL contains an auth route. -/
def fileAuthInterceptor (authToken : Option String) (formId apiKey : String)
    (url : Option String) (h : Headers) : Headers :=
  if fileRouteRequiresAuth url then applyAuthHeaders authToken formId apiKey h
  else h

/-- `getCurrentAuthHeader()`: the header value alone, same precedence. -/
def getCurrentAuthHeader (authToken : Option String) (formId apiKey : String) :
    Option String :=
  if jsTruthyStr authToken then
    some ("Bearer " ++ tokenValue authToken)
  else if !(apiKey == "") && !(formId == "") then
    some ("Basic " ++ btoa (formId ++ ":" ++ apiKey))
  else none

/-! ## Component loader (services/componentLoader.js)

Script execution is the browser's side effect, so the component info (or
failure) a fresh script load settles with enters as an oracle
`load : String → Except String CompInfo`, and the registry states around a
load enter as parameters of `loadScriptFromUri`. -/

/-- The `{ uri, newComponents, totalComponents }` record a successful
`loadScriptFromUri` resolves with. -/
structure CompInfo where
  uri : String
  newComponents : List String
  totalComponents : Nat
deriving DecidableEq, Repr

/-- The global FormIO component registry
(`Formio?.Components?.components`), `none` when the chain is absent. -/
structure FormioRegistry where
  components : Option (List String)
deriving DecidableEq, Repr

/-- `getRegisteredComponents()`: the registry's key list, `[]` when the
registry is absent. -/
def getRegisteredComponents (r : FormioRegistry) : List String :=
  match r.components with
  | none => []
  | some keys => keys

/-- `loadScriptFromUri(uri)` on a successful load: the registry snapshot
is taken before the script element is appended, and after `onload` the new
snapshot is diffed against it. -/
def loadScriptFromUri (uri : String) (before after : FormioRegistry) :
    CompInfo :=
  let beforeComponents := getRegisteredComponents before
  let afterComponents := getRegisteredComponents after
  { uri := uri,
    newComponents := afterComponents.filter
      (fun comp => !(beforeComponents.contains comp)),
    totalComponents := afterComponents.length }

/-- The mutable state of the `ComponentLoader` singleton plus the script
elements appended to the document so far. An in-flight entry of
`loadingPromises` carries the outcome its promise will eventually settle
with. -/
structure LoaderState where
  loadedComponents : List (String × CompInfo)
  loadingPromises : List (String × Except String CompInfo)
  scriptsCreated : List String
deriving Repr

/-- Status field of a `loadExternalComponents` result entry. -/
inductive LoadStatus where
  | cached
  | deduped
  | loaded
  | error
deriving DecidableEq, Repr

/-- One entry of the `results` array of `loadExternalComponents`. -/
structure LoadResult where
  uri : String
  status : LoadStatus
  components : Option CompInfo
  errMsg : Option String
deriving DecidableEq, Repr

/-- One iteration of the `for (const uri of externalUris)` loop of
`loadExternalComponents`:
  * a uri already in `loadedComponents` is reported `cached` with the
    recorded info and appends no script element;
  * a uri with an in-flight promise is awaited; the promise's settlement
    resumes the original caller first, which stores the info in
    `loadedComponents` (on fulfilment) and deletes the in-flight entry;
    this call then reports `deduped` with
    `this.loadedComponents.get(uri)` — or, when the awaited promise
    rejects, lands in the catch block and reports `error`;
  * otherwise a script element is appended and the load settles with the
    oracle's verdict for the uri (a failed load is removed from
    `loadingPromises` and recorded nowhere else). -/
def processUri (load : String → Except String CompInfo) (s : LoaderState)
    (uri : String) : LoaderState × LoadResult :=
  match lookupL s.loadedComponents uri with
  | some info =>
    (s, { uri := uri, status := .cached, components := some info,
          errMsg := none })
  | none =>
    match lookupL s.loadingPromises uri with
    | some (.ok info) =>
      let loaded' := setE s.loadedComponents uri info
      ({ s with loadedComponents := loaded',
                loadingPromises := eraseK s.loadingPromises uri },
       { uri := uri, status := .deduped, components := lookupL loaded' uri,
         errMsg := none })
    | some (.error e) =>
      ({ s with loadingPromises := eraseK s.loadingPromises uri },
       { uri := uri, status := .error, components := none, errMsg := some e })
    | none =>
      match load uri with
      | .ok info =>
        ({ s with loadedComponents := setE s.loadedComponents uri info,
                  scriptsCreated := s.scriptsCreated ++ [uri] },
         { uri := uri, status := .loaded, components := some info,
           errMsg := none })
      | .error e =>
        ({ s with scriptsCreated := s.scriptsCreated ++ [uri] },
         { uri := uri, status := .error, components := none,
           errMsg := some e })

/-- `loadExternalComponents(externalUris)`: the sequential loop over the
argument list. -/
def loadExternalComponents (load : String → Except String CompInfo) :
    LoaderState → List String → LoaderState × List LoadResult
  | s, [] => (s, [])
  | s, uri :: rest =>
    let step := processUri load s uri
    let r := loadExternalComponents load step.1 rest
    (r.1, step.2 :: r.2)

/-! ## Vite dev-server reverse proxy (vite.config.js) -/

/-- `env.VITE_CHEFS_BASE_PATH || '/app/api/v1'`: the configured remote base
path with its default. -/
def chefsBasePath (env : String → Option String) : String :=
  jsOrStr (env "VITE_CHEFS_BASE_PATH") "/app/api/v1"

/-- JavaScript `String.prototype.replace` with a plain-string pattern:
replaces the first occurrence only (and is the identity when the pattern
does not occur). -/
def replaceFirstAux (pat rep : List Char) : List Char → List Char
  | [] => if startsWithList [] pat then rep else []
  | c :: cs =>
    if startsWithList (c :: cs) pat then rep ++ (c :: cs).drop pat.length
    else c :: replaceFirstAux pat rep cs

/-- The proxy's `rewrite` function: `path.replace('/api', chefsBasePath)`. -/
def rewritePath (basePath path : String) : String :=
  ⟨replaceFirstAux "/api".data basePath.data path.data⟩

/-- The headers the proxy inspects on the incoming request and sets on the
outgoing proxied request. -/
structure ProxyHeaders where
  authorization : Option String
  xApiKey : Option String
deriving DecidableEq, Repr

/-- The `proxyReq` handler: copies a truthy `Authorization` header and a
truthy `X-API-KEY` header from the incoming request onto the proxied
request. -/
def forwardAuthHeaders (req proxyReq : ProxyHeaders) : ProxyHeaders :=
  let p1 :=
    if jsTruthyStr req.authorization then
      { proxyReq with authorization := req.authorization }
    else proxyReq
  if jsTruthyStr req.xApiKey then { p1 with xApiKey := req.xApiKey } else p1

/-! ## Form store (stores/chefsForm.js) and EmbeddedForm.vue -/

/-- The store's reactive `formConfig`. -/
structure FormConfig where
  formId : String
  formVersionId : String
  apiKey : String
  baseApiUrl : String
deriving DecidableEq, Repr

/-- The `isFullyConfigured` computed property. -/
def isFullyConfigured (cfg : FormConfig) : Bool :=
  !(cfg.baseApiUrl == "") && !(cfg.formId == "") &&
    !(cfg.formVersionId == "") && !(cfg.apiKey == "")

/-- The store's fixed error messages. -/
def idsRequiredMsg : String := "Both Form ID and Form Version ID are required"

def configIncompleteMsg : String :=
  "Form configuration is incomplete. Please check environment variables."

def noModuleVersionsMsg : String := "No form module versions found for this form"

def noSchemaMsg : String := "No form schema found for this form version"

/-- The store state touched by the claims. -/
structure StoreState where
  loading : Bool
  error : Option String
  formModuleVersions : List ModuleVersionEntry
  selectedFormModuleVersion : Option ModuleVersionEntry
  formSchema : Option SchemaResult
  submissionData : Option String
  isFormReady : Bool
deriving Repr

/-- Outcome of a store action: the new state, the value returned or the
error rethrown, and how many network calls were made. -/
structure ActionResult (α : Type) where
  state : StoreState
  result : Except JsError α
  apiCalls : Nat

/-- `fetchFormModuleVersions()`: guard on the configured ids, flip
`loading` on and clear `error`, make exactly one API call (oracle `resp`),
store the data and auto-select its first entry on success or set the
`Failed to fetch form module versions: ...` message on failure, and reset
`loading` in the `finally`. The raw error is rethrown. -/
def fetchFormModuleVersions (cfg : FormConfig)
    (resp : Except JsError (List ModuleVersionEntry)) (s : StoreState) :
    ActionResult (List ModuleVersionEntry) :=
  if cfg.formId == "" || cfg.formVersionId == "" then
    { state := { s with error := some idsRequiredMsg },
      result := .error ⟨idsRequiredMsg⟩,
      apiCalls := 0 }
  else
    let s1 := { s with loading := true, error := none }
    match resp with
    | .ok data =>
      { state :=
          { s1 with
            formModuleVersions := data,
            selectedFormModuleVersion :=
              match data with
              | d :: _ => some d
              | [] => s1.selectedFormModuleVersion,
            loading := false },
        result := .ok data, apiCalls := 1 }
    | .error err =>
      { state :=
          { s1 with
            error :=
              some ("Failed to fetch form module versions: " ++ err.message),
            loading := false },
        result := .error err, apiCalls := 1 }

/-- `fetchFormSchema()`: same shape around
`chefsApi.getFormSchema(formId, formVersionId)` with the
`Failed to fetch form schema: ...` message. -/
def fetchFormSchema (cfg : FormConfig)
    (resp : Except JsError ChefsFormData) (s : StoreState) :
    ActionResult SchemaResult :=
  if cfg.formId == "" || cfg.formVersionId == "" then
    { state := { s with error := some idsRequiredMsg },
      result := .error ⟨idsRequiredMsg⟩,
      apiCalls := 0 }
  else
    let s1 := { s with loading := true, error := none }
    match (getFormSchemaCalled cfg.formId cfg.formVersionId resp).1 with
    | .ok data =>
      { state := { s1 with formSchema := some data, loading := false },
        result := .ok data, apiCalls := 1 }
    | .error err =>
      { state :=
          { s1 with
            error := some ("Failed to fetch form schema: " ++ err.message),
            loading := false },
        result := .error err, apiCalls := 1 }

/-- `loadExternalResources()`: reads the selected module version's
`externalUris` (`|| []`), applies the development override, delegates to
the component loader, and catches everything — it never throws and never
writes the store state. -/
def loadExternalResources (envMode envUseLocal : String)
    (load : String → Except String CompInfo) (ls : LoaderState)
    (s : StoreState) : LoaderState :=
  let externalUris :=
    match s.selectedFormModuleVersion with
    | some mv => mv.formModuleVersion.externalUris
    | none => []
  let externalUris :=
    if envMode == "development" && envUseLocal == "true" then
      ["/bcgov-formio-components.use.min.js"]
    else externalUris
  (loadExternalComponents load ls externalUris).1

/-- `loadFormIOLibrary()`: only patches the global `Formio.version` when it
is falsy, not a string, or the unsubstituted placeholder; it cannot fail
and leaves the store state alone. -/
def loadFormIOLibrary (version : Option String) : Option String :=
  match version with
  | none => some "5.0.0-rc.86"
  | some v =>
    if v == "" || v == "FORMIO_VERSION" then some "5.0.0-rc.86" else some v

/-- The value `initializeForm()` resolves with. -/
structure InitOk where
  moduleVersion : Option ModuleVersionEntry
  schema : Option SchemaResult
deriving Repr

/-- `initializeForm()`: the whole initialization sequence — configuration
guard, module-version fetch, empty-list guard, external resources, FormIO
library, schema fetch, schema guard. Its catch overwrites `error` with
`Failed to initialize form: <message>` and rethrows the original error.
`loadFormIOLibrary` touches only the global FormIO object, so it does not
appear in the store state. -/
def initializeForm (cfg : FormConfig)
    (respMV : Except JsError (List ModuleVersionEntry))
    (respFD : Except JsError ChefsFormData)
    (envMode envUseLocal : String) (load : String → Except String CompInfo)
    (ls : LoaderState) (s : StoreState) :
    StoreState × LoaderState × Except JsError InitOk :=
  if !(isFullyConfigured cfg) then
    ({ s with error := some configIncompleteMsg }, ls,
     .error ⟨configIncompleteMsg⟩)
  else
    let r1 := fetchFormModuleVersions cfg respMV s
    match r1.result with
    | .error e =>
      ({ r1.state with
          error := some ("Failed to initialize form: " ++ e.message) },
       ls, .error e)
    | .ok _ =>
      if r1.state.formModuleVersions.length == 0 then
        ({ r1.state with
            error := some ("Failed to initialize form: " ++ noModuleVersionsMsg) },
         ls, .error ⟨noModuleVersionsMsg⟩)
      else
        let ls1 := loadExternalResources envMode envUseLocal load ls r1.state
        let r2 := fetchFormSchema cfg respFD r1.state
        match r2.result with
        | .error e =>
          ({ r2.state with
              error := some ("Failed to initialize form: " ++ e.message) },
           ls1, .error e)
        | .ok _ =>
          match r2.state.formSchema with
          | none =>
            ({ r2.state with
                error := some ("Failed to initialize form: " ++ noSchemaMsg) },
             ls1, .error ⟨noSchemaMsg⟩)
          | some _ =>
            (r2.state, ls1,
             .ok { moduleVersion := r2.state.selectedFormModuleVersion,
                   schema := r2.state.formSchema })

/-- The `v-if="error"` panel (with its retry button) in EmbeddedForm.vue:
rendered exactly when the store error is truthy. -/
def errorPanelShown (s : StoreState) : Bool :=
  jsTruthyStr s.error

/-- `reset()` of the store. -/
def resetStore (_s : StoreState) : StoreState :=
  { loading := false, error := none, formModuleVersions := [],
    selectedFormModuleVersion := none, formSchema := none,
    submissionData := none, isFormReady := false }

/-- `initializeFormData()` in EmbeddedForm.vue. Its own configuration guard
tests the destructured ref object (`if (!isFullyConfigured)`), which is
always truthy, so the guard never fires and the store-level check inside
`initializeForm` is what rejects incomplete configuration. On success the
form is marked ready; a thrown error is swallowed (the store already holds
the message). -/
def initializeFormData (cfg : FormConfig)
    (respMV : Except JsError (List ModuleVersionEntry))
    (respFD : Except JsError ChefsFormData)
    (envMode envUseLocal : String) (load : String → Except String CompInfo)
    (ls : LoaderState) (s : StoreState) : StoreState × LoaderState :=
  let r := initializeForm cfg respMV respFD envMode envUseLocal load ls s
  match r.2.2 with
  | .ok _ => ({ r.1 with isFormReady := true }, r.2.1)
  | .error _ => (r.1, r.2.1)

/-- `retryLoad()` in EmbeddedForm.vue: `reset()` then the whole
initialization sequence again. -/
def retryLoad (cfg : FormConfig)
    (respMV : Except JsError (List ModuleVersionEntry))
    (respFD : Except JsError ChefsFormData)
    (envMode envUseLocal : String) (load : String → Except String CompInfo)
    (ls : LoaderState) (s : StoreState) : StoreState × LoaderState :=
  initializeFormData cfg respMV respFD envMode envUseLocal load ls
    (resetStore s)

/-! ### Concrete instances used by the witnesses -/

/-- Concrete upload oracle for the C8 witness: `t1` succeeds, all else fails. -/
def witnessUpO : String → PendingUpload → Except JsError UploadResult :=
  fun tid _ => if tid == "t1" then .ok ⟨"fid1"⟩ else .error ⟨"boom"⟩

/-- Concrete delete oracle for the C8 witness: every delete fails. -/
def witnessDelO : String → Except JsError Unit :=
  fun _ => .error ⟨"denied"⟩

/-- Concrete file state for the C8 witness. -/
def witnessFileState : FileState :=
  { pendingUploads :=
      [("t1", ⟨⟨"a.txt", 3, "text/plain"⟩, []⟩),
       ("t2", ⟨⟨"b.txt", 4, "text/plain"⟩, []⟩)],
    pendingDeletes := ["f9"],
    uploadedFiles := [] }

/-- Loader state for the C2 witness: "a" already loaded, "b" in flight and
fulfilling, "c" in flight and rejecting. -/
def witnessLoaderState : LoaderState :=
  { loadedComponents := [("a", ⟨"a", ["x"], 3⟩)],
    loadingPromises := [("b", .ok ⟨"b", ["y"], 4⟩), ("c", .error "boom")],
    scriptsCreated := ["a"] }

/-- Concrete store state for the C5 witness. -/
def witnessStoreState : StoreState :=
  { loading := false, error := none, formModuleVersions := [],
    selectedFormModuleVersion := none, formSchema := none,
    submissionData := none, isFormReady := false }

/-! ### Lemmas about the association-list maps -/

theorem lookupL_setE_self {α : Type} (l : List (String × α)) (k : String) (v : α) :
    lookupL (setE l k v) k = some v := by
  induction l with
  | nil => simp [setE, lookupL]
  | cons hd t ih =>
    obtain ⟨k', v'⟩ := hd
    by_cases h : k' == k
    · simp [setE, h, lookupL]
    · simp [setE, h, lookupL, ih]

theorem lookupL_setE_ne {α : Type} (l : List (String × α)) (k k' : String) (v : α)
    (h : k ≠ k') : lookupL (setE l k v) k' = lookupL l k' := by
  induction l with
  | nil => simp [setE, lookupL, h]
  | cons hd t ih =>
    obtain ⟨k0, v0⟩ := hd
    by_cases h0 : k0 == k
    · have hk0 : k0 = k := by simpa using h0
      subst hk0
      simp [setE, lookupL, h]
    · simp only [setE, h0, if_neg]
      by_cases h1 : k0 == k'
      · simp [lookupL, h1]
      · simp [lookupL, h1, ih]

/-! ### Lemmas about the comparison loop -/

theorem cmpIdx_antisymm (a b : List Int) :
    ∀ (fuel i : Nat), cmpIdx a b i fuel = -cmpIdx b a i fuel := by
  intro fuel
  induction fuel with
  | zero => intro i; simp [cmpIdx]
  | succ n ih =>
    intro i
    simp only [cmpIdx]
    split_ifs <;> first | exact ih (i + 1) | omega

theorem cmpIdx_self (a : List Int) :
    ∀ (fuel i : Nat), cmpIdx a a i fuel = 0 := by
  intro fuel
  induction fuel with
  | zero => intro i; simp [cmpIdx]
  | succ n ih => intro i; simp [cmpIdx, lt_irrefl, ih]

theorem cmpIdx_range (a b : List Int) :
    ∀ (fuel i : Nat),
      cmpIdx a b i fuel = -1 ∨ cmpIdx a b i fuel = 0 ∨ cmpIdx a b i fuel = 1 := by
  intro fuel
  induction fuel with
  | zero => intro i; simp [cmpIdx]
  | succ n ih =>
    intro i
    simp only [cmpIdx]
    split_ifs with h1 h2
    · tauto
    · tauto
    · exact ih (i + 1)

theorem compareVersionStrings_antisymm (A B : String) :
    compareVersionStrings A B = -compareVersionStrings B A := by
  unfold compareVersionStrings
  by_cases hA : A = "" <;> by_cases hB : B = ""
  · simp [hA, hB]
  · simp [hA, hB]
  · simp [hA, hB]
  · have hA' : (A == "") = false := by simpa using hA
    have hB' : (B == "") = false := by simpa using hB
    simp only [hA', hB', Bool.false_and, Bool.and_false, Bool.false_eq_true, if_false]
    rw [Nat.max_comm]
    exact cmpIdx_antisymm _ _ _ _

theorem compareVersionStrings_self (A : String) :
    compareVersionStrings A A = 0 := by
  unfold compareVersionStrings
  by_cases hA : A = "" <;> simp [hA, cmpIdx_self]

theorem compareVersionStrings_range (A B : String) :
    compareVersionStrings A B = -1 ∨ compareVersionStrings A B = 0 ∨
      compareVersionStrings A B = 1 := by
  unfold compareVersionStrings
  split_ifs <;> first | tauto | apply cmpIdx_range

theorem compareVersions_antisymm (a b : JSVal) :
    compareVersions a b = -compareVersions b a := by
  unfold compareVersions
  by_cases ha : a.isNullish <;> by_cases hb : b.isNullish
  · simp [ha, hb]
  · simp [ha, hb]
  · simp [ha, hb]
  · simp only [Bool.not_eq_true] at ha hb
    simp only [ha, hb, Bool.false_and, Bool.and_false, if_false]
    exact compareVersionStrings_antisymm _ _

theorem compareVersions_self (a : JSVal) : compareVersions a a = 0 := by
  unfold compareVersions
  by_cases ha : a.isNullish
  · simp [ha]
  · simp only [Bool.not_eq_true] at ha
    simp [ha, compareVersionStrings_self]

theorem compareVersions_range (a b : JSVal) :
    compareVersions a b = -1 ∨ compareVersions a b = 0 ∨ compareVersions a b = 1 := by
  unfold compareVersions
  split_ifs <;> first | tauto | apply compareVersionStrings_range

/-- C9: the `compareVersions` polyfill is a comparator returning only -1, 0
or 1; over all modelled JavaScript inputs (null, undefined, strings, numbers,
booleans) it satisfies `compareVersions a b = -compareVersions b a` and
`compareVersions a a = 0`; dot-separated parts are compared positionally with
missing or wholly non-numeric parts treated as 0, so "1.0" and "1" compare
equal (and "1.beta" equals "1.0"). -/
theorem c9_compareVersions_comparator :
    (∀ a b : JSVal,
        (compareVersions a b = -1 ∨ compareVersions a b = 0 ∨
          compareVersions a b = 1) ∧
        compareVersions a b = -compareVersions b a) ∧
    (∀ a : JSVal, compareVersions a a = 0) ∧
    compareVersions (.str "1.0") (.str "1") = 0 ∧
    compareVersions (.str "1.beta") (.str "1.0") = 0 :=
  ⟨fun a b => ⟨compareVersions_range a b, compareVersions_antisymm a b⟩,
   compareVersions_self, by decide, by decide⟩

/-! ### Lemmas about the file-operation queues -/

theorem startsWithList_append (p x : List Char) :
    startsWithList (p ++ x) p = true := by
  induction p with
  | nil => simp [startsWithList]
  | cons c cs ih => simp [startsWithList, ih]

theorem strStartsWith_append (p x : String) :
    strStartsWith (p ++ x) p = true := by
  simp [strStartsWith, String.data_append, startsWithList_append]

theorem runUploads_count_posts
    (upO : String → PendingUpload → Except JsError UploadResult)
    (l : List (String × PendingUpload)) (uf : List (String × UploadResult)) :
    ((runUploads upO l uf).2.2.2).count (⟨.post, "/files"⟩ : Request) =
      l.length := by
  induction l generalizing uf with
  | nil => simp [runUploads]
  | cons hd t ih =>
    obtain ⟨tempId, u⟩ := hd
    simp only [runUploads, actualUploadFile]
    cases upO tempId u with
    | ok r => simp [List.count_cons, ih]
    | error e => simp [List.count_cons, ih]

theorem runDeletes_no_posts (delO : String → Except JsError Unit)
    (l : List String) :
    ((runDeletes delO l).2.2).count (⟨.post, "/files"⟩ : Request) = 0 := by
  induction l with
  | nil => simp [runDeletes]
  | cons fid t ih =>
    simp only [runDeletes, actualDeleteFile]
    cases delO fid with
    | ok r => simp [List.count_cons, ih]
    | error e => simp [List.count_cons, ih]

theorem process_count_posts
    (upO : String → PendingUpload → Except JsError UploadResult)
    (delO : String → Except JsError Unit) (s : FileState) :
    ((processPendingFileOperations upO delO s).2.2).count
        (⟨.post, "/files"⟩ : Request) = s.pendingUploads.length := by
  simp [processPendingFileOperations, List.count_append,
    runUploads_count_posts, runDeletes_no_posts]

theorem runUploads_uploadedFiles_preserved
    (upO : String → PendingUpload → Except JsError UploadResult)
    (l : List (String × PendingUpload)) (uf : List (String × UploadResult))
    (k : String) (hk : k ∉ l.map Prod.fst) :
    lookupL (runUploads upO l uf).2.1 k = lookupL uf k := by
  induction l generalizing uf with
  | nil => simp [runUploads]
  | cons hd t ih =>
    obtain ⟨tempId, u⟩ := hd
    simp only [List.map_cons, List.mem_cons, not_or] at hk
    simp only [runUploads, actualUploadFile]
    cases upO tempId u with
    | ok r =>
      rw [ih _ hk.2, lookupL_setE_ne _ _ _ _ (Ne.symm hk.1)]
    | error e =>
      exact ih _ hk.2

theorem runUploads_uploadedFiles_ok
    (upO : String → PendingUpload → Except JsError UploadResult)
    (l : List (String × PendingUpload)) (uf : List (String × UploadResult))
    (tempId : String) (u : PendingUpload) (r : UploadResult)
    (hmem : (tempId, u) ∈ l) (hnd : (l.map Prod.fst).Nodup)
    (hok : upO tempId u = .ok r) :
    lookupL (runUploads upO l uf).2.1 tempId = some r := by
  induction l generalizing uf with
  | nil => simp at hmem
  | cons hd t ih =>
    obtain ⟨t0, u0⟩ := hd
    simp only [List.map_cons, List.nodup_cons] at hnd
    rcases List.mem_cons.mp hmem with heq | htail
    · obtain ⟨rfl, rfl⟩ := Prod.mk.injEq .. ▸ heq
      simp only [runUploads, actualUploadFile, hok]
      rw [runUploads_uploadedFiles_preserved _ _ _ _ hnd.1,
        lookupL_setE_self]
    · simp only [runUploads, actualUploadFile]
      cases upO t0 u0 with
      | ok r0 => exact ih _ htail hnd.2
      | error e => exact ih _ htail hnd.2

theorem runUploads_uploads_ok
    (upO : String → PendingUpload → Except JsError UploadResult)
    (l : List (String × PendingUpload)) (uf : List (String × UploadResult))
    (tempId : String) (u : PendingUpload) (r : UploadResult)
    (hmem : (tempId, u) ∈ l) (hnd : (l.map Prod.fst).Nodup)
    (hok : upO tempId u = .ok r) :
    lookupL (runUploads upO l uf).1 tempId = some r := by
  induction l generalizing uf with
  | nil => simp at hmem
  | cons hd t ih =>
    obtain ⟨t0, u0⟩ := hd
    simp only [List.map_cons, List.nodup_cons] at hnd
    rcases List.mem_cons.mp hmem with heq | htail
    · obtain ⟨rfl, rfl⟩ := Prod.mk.injEq .. ▸ heq
      simp only [runUploads, actualUploadFile, hok]
      simp [lookupL]
    · have hne : t0 ≠ tempId := by
        intro h
        exact hnd.1 (h ▸ List.mem_map_of_mem Prod.fst htail)
      simp only [runUploads, actualUploadFile]
      cases upO t0 u0 with
      | ok r0 =>
        simp only [lookupL]
        rw [if_neg (by simpa using hne)]
        exact ih _ htail hnd.2
      | error e => exact ih _ htail hnd.2

theorem runUploads_errors_mem
    (upO : String → PendingUpload → Except JsError UploadResult)
    (l : List (String × PendingUpload)) (uf : List (String × UploadResult))
    (tempId : String) (u : PendingUpload) (e : JsError)
    (hmem : (tempId, u) ∈ l) (herr : upO tempId u = .error e) :
    ({ type := .upload, tempId := some tempId, fileId := none,
       fileName := some u.file.name, error := e.message } : OpError) ∈
      (runUploads upO l uf).2.2.1 := by
  induction l generalizing uf with
  | nil => simp at hmem
  | cons hd t ih =>
    obtain ⟨t0, u0⟩ := hd
    rcases List.mem_cons.mp hmem with heq | htail
    · obtain ⟨rfl, rfl⟩ := Prod.mk.injEq .. ▸ heq
      simp only [runUploads, actualUploadFile, herr]
      exact List.mem_cons_self _ _
    · simp only [runUploads, actualUploadFile]
      cases upO t0 u0 with
      | ok r0 => exact ih _ htail
      | error e0 => exact List.mem_cons_of_mem _ (ih _ htail)

theorem runDeletes_errors_mem (delO : String → Except JsError Unit)
    (l : List String) (fileId : String) (e : JsError)
    (hmem : fileId ∈ l) (herr : delO fileId = .error e) :
    ({ type := .delete, tempId := none, fileId := some fileId,
       fileName := none, error := e.message } : OpError) ∈
      (runDeletes delO l).2.1 := by
  induction l with
  | nil => simp at hmem
  | cons f0 t ih =>
    rcases List.mem_cons.mp hmem with rfl | htail
    · simp only [runDeletes, actualDeleteFile, herr]
      exact List.mem_cons_self _ _
    · simp only [runDeletes, actualDeleteFile]
      cases delO f0 with
      | ok r0 => exact ih htail
      | error e0 => exact List.mem_cons_of_mem _ (ih htail)

/-- C1: `uploadFile` issues no HTTP request: the file and its options are
stored in `pendingUploads` under the fresh `temp_`-prefixed identifier, the
returned descriptor's `data.id` equals that identifier, and
`processPendingFileOperations` is what issues the `POST /files` requests —
one per queued upload. -/
theorem c1_uploadFile_defers_request (now : Nat) (rand : String) (f : JsFile)
    (o : List (String × String)) (s : FileState)
    (upO : String → PendingUpload → Except JsError UploadResult)
    (delO : String → Except JsError Unit) :
    (uploadFile now rand f o s).2.2 = [] ∧
    (uploadFile now rand f o s).2.1.dataId =
      "temp_" ++ toString now ++ "_" ++ rand ∧
    strStartsWith (uploadFile now rand f o s).2.1.dataId "temp_" = true ∧
    lookupL (uploadFile now rand f o s).1.pendingUploads
        ("temp_" ++ toString now ++ "_" ++ rand) = some ⟨f, o⟩ ∧
    ((processPendingFileOperations upO delO (uploadFile now rand f o s).1).2.2).count
        (⟨.post, "/files"⟩ : Request) =
      (uploadFile now rand f o s).1.pendingUploads.length :=
  ⟨rfl, rfl, strStartsWith_append "temp_" _, lookupL_setE_self _ _ _,
   process_count_posts _ _ _⟩

/-- C8: after `processPendingFileOperations` both queues are empty whatever
the individual outcomes; a successful upload is recorded under its temp id
in `uploadedFiles` and in `results.uploads`; a failed upload or delete
becomes an entry of `results.errors` instead of being rethrown or retained. -/
theorem c8_process_empties_queues
    (upO : String → PendingUpload → Except JsError UploadResult)
    (delO : String → Except JsError Unit) (s : FileState)
    (hnd : (s.pendingUploads.map Prod.fst).Nodup) :
    (processPendingFileOperations upO delO s).1.pendingUploads = [] ∧
    (processPendingFileOperations upO delO s).1.pendingDeletes = [] ∧
    (∀ tempId u, (tempId, u) ∈ s.pendingUploads →
      (∀ r, upO tempId u = .ok r →
        lookupL (processPendingFileOperations upO delO s).1.uploadedFiles
            tempId = some r ∧
        lookupL (processPendingFileOperations upO delO s).2.1.uploads
            tempId = some r) ∧
      (∀ e, upO tempId u = .error e →
        ({ type := .upload, tempId := some tempId, fileId := none,
           fileName := some u.file.name, error := e.message } : OpError) ∈
          (processPendingFileOperations upO delO s).2.1.errors)) ∧
    (∀ fileId ∈ s.pendingDeletes, ∀ e, delO fileId = .error e →
      ({ type := .delete, tempId := none, fileId := some fileId,
         fileName := none, error := e.message } : OpError) ∈
        (processPendingFileOperations upO delO s).2.1.errors) := by
  refine ⟨rfl, rfl, ?_, ?_⟩
  · intro tempId u hmem
    constructor
    · intro r hok
      exact ⟨runUploads_uploadedFiles_ok _ _ _ _ _ _ hmem hnd hok,
             runUploads_uploads_ok _ _ _ _ _ _ hmem hnd hok⟩
    · intro e herr
      exact List.mem_append_left _
        (runUploads_errors_mem _ _ _ _ _ _ hmem herr)
  · intro fileId hmem e herr
    exact List.mem_append_right _ (runDeletes_errors_mem _ _ _ _ hmem herr)

theorem c8_witness :
    lookupL (processPendingFileOperations witnessUpO witnessDelO
        witnessFileState).1.uploadedFiles "t1" = some ⟨"fid1"⟩ ∧
    ({ type := .delete, tempId := none, fileId := some "f9", fileName := none,
       error := "denied" } : OpError) ∈
      (processPendingFileOperations witnessUpO witnessDelO
        witnessFileState).2.1.errors := by
  have h := c8_process_empties_queues witnessUpO witnessDelO witnessFileState
    (by decide)
  refine ⟨((h.2.2.1 "t1" ⟨⟨"a.txt", 3, "text/plain"⟩, []⟩ (by decide)).1
      ⟨"fid1"⟩ rfl).1, ?_⟩
  exact h.2.2.2 "f9" (by decide) ⟨"denied"⟩ rfl

/-! ### Request paths, schema extraction, auth headers, proxy -/

/-- C6: the client issues exactly the documented request paths:
`GET /forms/{formId}/versions/{formVersionId}/formModuleVersions`,
`GET /forms/{formId}/version`, `POST /files` for the deferred upload,
`GET /files/{fileId}` for a non-temporary id, and `DELETE /files/{fileId}`
for the deferred delete. -/
theorem c6_request_paths (formId formVersionId fileId : String)
    (respMV : Except JsError (List ModuleVersionEntry))
    (respFD : Except JsError ChefsFormData)
    (respUp : Except JsError UploadResult) (f : JsFile)
    (cfg : List (String × String))
    (respGet : Except JsError String) (respDel : Except JsError Unit)
    (s : FileState)
    (h : strStartsWith fileId "temp_" = false) :
    (getFormModuleVersions formId formVersionId respMV).2 =
      [⟨.get, "/forms/" ++ formId ++ "/versions/" ++ formVersionId ++
        "/formModuleVersions"⟩] ∧
    (getFormSchema formId respFD).2 =
      [⟨.get, "/forms/" ++ formId ++ "/version"⟩] ∧
    (actualUploadFile respUp f cfg).2 = [⟨.post, "/files"⟩] ∧
    (getFile fileId respGet s).2 = [⟨.get, "/files/" ++ fileId⟩] ∧
    (actualDeleteFile respDel fileId).2 =
      [⟨.delete, "/files/" ++ fileId⟩] := by
  refine ⟨rfl, rfl, rfl, ?_, rfl⟩
  simp [getFile, h]

theorem c6_witness :
    (getFile "abc123" (.ok "payload") witnessFileState).2 =
      [⟨.get, "/files/" ++ "abc123"⟩] :=
  (c6_request_paths "f" "v" "abc123" (.ok []) (.ok ⟨none, "x"⟩) (.ok ⟨"i"⟩)
    ⟨"n", 1, "t"⟩ [] (.ok "payload") (.ok ()) witnessFileState
    (by decide)).2.2.2.1

/-- C10: `getFormSchema` does not return the response verbatim: a
non-empty `versions` array whose first element carries a schema yields that
schema, every other shape yields the raw body; and the `formVersionId` the
store passes is dropped by the one-parameter signature, the request path
carrying no version id. -/
theorem c10_getFormSchema_extraction (formId vid vid' : String)
    (resp : Except JsError ChefsFormData) (fd : ChefsFormData) :
    getFormSchemaCalled formId vid resp = getFormSchemaCalled formId vid' resp ∧
    (getFormSchema formId resp).2 =
      [⟨.get, "/forms/" ++ formId ++ "/version"⟩] ∧
    (∀ version rest schema, fd.versions = some (version :: rest) →
      version.schema = some schema →
      (getFormSchema formId (.ok fd)).1 = .ok (.fromVersion schema)) ∧
    (∀ version rest, fd.versions = some (version :: rest) →
      version.schema = none →
      (getFormSchema formId (.ok fd)).1 = .ok (.raw fd)) ∧
    (fd.versions = some [] → (getFormSchema formId (.ok fd)).1 = .ok (.raw fd)) ∧
    (fd.versions = none → (getFormSchema formId (.ok fd)).1 = .ok (.raw fd)) := by
  refine ⟨rfl, rfl, ?_, ?_, ?_, ?_⟩
  · intro version rest schema hv hs
    simp [getFormSchema, extractFormSchema, hv, hs]
  · intro version rest hv hs
    simp [getFormSchema, extractFormSchema, hv, hs]
  · intro hv; simp [getFormSchema, extractFormSchema, hv]
  · intro hv; simp [getFormSchema, extractFormSchema, hv]

theorem c10_witness :
    (getFormSchema "f1" (.ok ⟨some [⟨some ⟨"sch"⟩⟩], "meta"⟩)).1 =
      .ok (.fromVersion ⟨"sch"⟩) :=
  (c10_getFormSchema_extraction "f1" "v1" "v2"
      (.ok ⟨some [⟨some ⟨"sch"⟩⟩], "meta"⟩)
      ⟨some [⟨some ⟨"sch"⟩⟩], "meta"⟩).2.2.1 ⟨some ⟨"sch"⟩⟩ [] ⟨"sch"⟩ rfl rfl

/-- C4: the main client's interceptor always sets `Authorization`:
`Bearer <token>` when a token is set (taking precedence over Basic auth),
otherwise `Basic base64(formId:apiKey)` plus `X-API-KEY` when both
credentials are set; the file client attaches the same headers exactly when
the request URL contains `/files` or `/submissions`. -/
theorem c4_auth_headers (t formId apiKey : String) (tok : Option String)
    (h : Headers) (u : String) :
    (t ≠ "" →
      (mainAuthInterceptor (some t) formId apiKey h).authorization =
        some ("Bearer " ++ t)) ∧
    (formId ≠ "" → apiKey ≠ "" →
      (mainAuthInterceptor none formId apiKey h).authorization =
        some ("Basic " ++ btoa (formId ++ ":" ++ apiKey)) ∧
      (mainAuthInterceptor none formId apiKey h).xApiKey = some apiKey) ∧
    (strIncludes u "/files" = false → strIncludes u "/submissions" = false →
      fileAuthInterceptor tok formId apiKey (some u) h = h) ∧
    (strIncludes u "/files" = true ∨ strIncludes u "/submissions" = true →
      fileAuthInterceptor tok formId apiKey (some u) h =
        mainAuthInterceptor tok formId apiKey h) ∧
    fileAuthInterceptor tok formId apiKey none h = h := by
  refine ⟨?_, ?_, ?_, ?_, ?_⟩
  · intro ht
    simp [mainAuthInterceptor, applyAuthHeaders, jsTruthyStr, tokenValue, ht]
  · intro hf hk
    simp [mainAuthInterceptor, applyAuthHeaders, jsTruthyStr, hf, hk]
  · intro h1 h2
    simp [fileAuthInterceptor, fileRouteRequiresAuth, h1, h2]
  · intro hor
    rcases hor with h1 | h1 <;>
      simp [fileAuthInterceptor, fileRouteRequiresAuth, mainAuthInterceptor, h1]
  · simp [fileAuthInterceptor, fileRouteRequiresAuth]

theorem c4_witness :
    (mainAuthInterceptor (some "tok") "myform" "secret"
        ⟨none, none⟩).authorization = some ("Bearer " ++ "tok") ∧
    (mainAuthInterceptor none "myform" "secret" ⟨none, none⟩).authorization =
      some ("Basic " ++ btoa ("myform" ++ ":" ++ "secret")) ∧
    fileAuthInterceptor (some "tok") "myform" "secret" (some "/avatar.png")
        ⟨none, none⟩ = ⟨none, none⟩ := by
  have h := c4_auth_headers "tok" "myform" "secret" (some "tok")
    ⟨none, none⟩ "/avatar.png"
  exact ⟨h.1 (by decide), (h.2.1 (by decide) (by decide)).1,
    h.2.2.1 (by decide) (by decide)⟩

theorem replaceFirstAux_prefix (pat rep x : List Char) (hne : pat ≠ []) :
    replaceFirstAux pat rep (pat ++ x) = rep ++ x := by
  cases pat with
  | nil => exact absurd rfl hne
  | cons p ps =>
    simp only [List.cons_append, replaceFirstAux]
    rw [if_pos]
    · congr 1
      rw [List.length_cons, List.drop_succ_cons]
      exact List.drop_left ps x
    · have := startsWithList_append (p :: ps) x
      simpa using this

theorem rewritePath_api (bp rest : String) :
    rewritePath bp ("/api" ++ rest) = bp ++ rest := by
  unfold rewritePath
  rw [String.data_append, replaceFirstAux_prefix _ _ _ (by decide)]
  rfl

/-- C7: for a path beginning with `/api` the proxy rewrite replaces that
first occurrence with the configured base path
(`VITE_CHEFS_BASE_PATH`, defaulting to `/app/api/v1`), and the proxy
forwards `Authorization` and `X-API-KEY` headers present on the incoming
request. -/
theorem c7_proxy_rewrite_and_forwarding (env : String → Option String)
    (rest a k : String) (req p : ProxyHeaders) :
    rewritePath (chefsBasePath env) ("/api" ++ rest) =
      chefsBasePath env ++ rest ∧
    (env "VITE_CHEFS_BASE_PATH" = none → chefsBasePath env = "/app/api/v1") ∧
    (req.authorization = some a → a ≠ "" →
      (forwardAuthHeaders req p).authorization = some a) ∧
    (req.xApiKey = some k → k ≠ "" →
      (forwardAuthHeaders req p).xApiKey = some k) := by
  refine ⟨rewritePath_api _ _, ?_, ?_, ?_⟩
  · intro he; simp [chefsBasePath, jsOrStr, he]
  · intro ha hne
    simp [forwardAuthHeaders, jsTruthyStr, ha, hne]
    split_ifs <;> simp [ha]
  · intro hk hne
    simp [forwardAuthHeaders, jsTruthyStr, hk, hne]

theorem c7_witness :
    rewritePath (chefsBasePath (fun _ => none)) ("/api" ++ "/forms/f/version") =
      "/app/api/v1" ++ "/forms/f/version" ∧
    (forwardAuthHeaders ⟨some "Basic xyz", some "key1"⟩
        ⟨none, none⟩).authorization = some "Basic xyz" := by
  have h := c7_proxy_rewrite_and_forwarding (fun _ => none) "/forms/f/version"
    "Basic xyz" "key1" ⟨some "Basic xyz", some "key1"⟩ ⟨none, none⟩
  refine ⟨?_, h.2.2.1 rfl (by decide)⟩
  rw [h.1, h.2.1 rfl]

/-! ### Component loader lemmas and claims C2, C3 -/

theorem processUri_result_uri (load : String → Except String CompInfo)
    (s : LoaderState) (uri : String) : (processUri load s uri).2.uri = uri := by
  rcases h1 : lookupL s.loadedComponents uri with _ | info
  · rcases h2 : lookupL s.loadingPromises uri with _ | (e | info)
    · rcases h3 : load uri with e | info <;> simp [processUri, h1, h2, h3]
    · simp [processUri, h1, h2]
    · simp [processUri, h1, h2]
  · simp [processUri, h1]

theorem processUri_scripts (load : String → Except String CompInfo)
    (s : LoaderState) (uri : String) :
    (processUri load s uri).1.scriptsCreated = s.scriptsCreated ∨
    (processUri load s uri).1.scriptsCreated = s.scriptsCreated ++ [uri] := by
  rcases h1 : lookupL s.loadedComponents uri with _ | info
  · rcases h2 : lookupL s.loadingPromises uri with _ | (e | info)
    · rcases h3 : load uri with e | info
      · right; simp [processUri, h1, h2, h3]
      · right; simp [processUri, h1, h2, h3]
    · left; simp [processUri, h1, h2]
    · left; simp [processUri, h1, h2]
  · left; simp [processUri, h1]

theorem processUri_loaded_mono (load : String → Except String CompInfo)
    (s : LoaderState) (uri u : String) (i : CompInfo)
    (h : lookupL s.loadedComponents u = some i) :
    lookupL (processUri load s uri).1.loadedComponents u = some i := by
  have hne : lookupL s.loadedComponents uri = none → uri ≠ u := by
    intro hnone heq
    rw [heq, h] at hnone
    exact Option.noConfusion hnone
  rcases h1 : lookupL s.loadedComponents uri with _ | info
  · rcases h2 : lookupL s.loadingPromises uri with _ | (e | info)
    · rcases h3 : load uri with e | info
      · simp only [processUri, h1, h2, h3]
        exact h
      · simp only [processUri, h1, h2, h3]
        rw [lookupL_setE_ne _ _ _ _ (hne h1)]
        exact h
    · simp only [processUri, h1, h2]
      exact h
    · simp only [processUri, h1, h2]
      rw [lookupL_setE_ne _ _ _ _ (hne h1)]
      exact h
  · simp only [processUri, h1]
    exact h

theorem processUri_cached (load : String → Except String CompInfo)
    (s : LoaderState) (uri : String) (info : CompInfo)
    (h : lookupL s.loadedComponents uri = some info) :
    processUri load s uri =
      (s, { uri := uri, status := .cached, components := some info,
            errMsg := none }) := by
  simp [processUri, h]

theorem processUri_deduped (load : String → Except String CompInfo)
    (s : LoaderState) (uri : String) (info : CompInfo)
    (h1 : lookupL s.loadedComponents uri = none)
    (h2 : lookupL s.loadingPromises uri = some (.ok info)) :
    (processUri load s uri).2.status = .deduped ∧
    (processUri load s uri).2.components = some info ∧
    (processUri load s uri).1.scriptsCreated = s.scriptsCreated := by
  refine ⟨?_, ?_, ?_⟩
  · simp [processUri, h1, h2]
  · simp only [processUri, h1, h2]
    exact lookupL_setE_self _ _ _
  · simp [processUri, h1, h2]

theorem processUri_inflight_error (load : String → Except String CompInfo)
    (s : LoaderState) (uri : String) (e : String)
    (h1 : lookupL s.loadedComponents uri = none)
    (h2 : lookupL s.loadingPromises uri = some (.error e)) :
    (processUri load s uri).2.status = .error ∧
    (processUri load s uri).1.scriptsCreated = s.scriptsCreated := by
  refine ⟨?_, ?_⟩ <;> simp [processUri, h1, h2]

theorem loadExternal_cached (load : String → Except String CompInfo)
    (uris : List String) (s : LoaderState) (uri : String) (info : CompInfo)
    (h : lookupL s.loadedComponents uri = some info) :
    (∀ res ∈ (loadExternalComponents load s uris).2, res.uri = uri →
      res.status = .cached ∧ res.components = some info) ∧
    ((loadExternalComponents load s uris).1.scriptsCreated).count uri =
      (s.scriptsCreated).count uri := by
  induction uris generalizing s with
  | nil => exact ⟨by simp [loadExternalComponents], rfl⟩
  | cons u0 rest ih =>
    by_cases he : u0 = uri
    · subst he
      rw [show loadExternalComponents load s (u0 :: rest) =
        ((loadExternalComponents load (processUri load s u0).1 rest).1,
         (processUri load s u0).2 ::
           (loadExternalComponents load (processUri load s u0).1 rest).2) from rfl]
      rw [processUri_cached load s u0 info h]
      have ih' := ih s h
      constructor
      · intro res hres hru
        rcases List.mem_cons.mp hres with rfl | htail
        · exact ⟨rfl, rfl⟩
        · exact ih'.1 res htail hru
      · exact ih'.2
    · rw [show loadExternalComponents load s (u0 :: rest) =
        ((loadExternalComponents load (processUri load s u0).1 rest).1,
         (processUri load s u0).2 ::
           (loadExternalComponents load (processUri load s u0).1 rest).2) from rfl]
      have hmono := processUri_loaded_mono load s u0 uri info h
      have ih' := ih (processUri load s u0).1 hmono
      constructor
      · intro res hres hru
        rcases List.mem_cons.mp hres with rfl | htail
        · exact absurd (processUri_result_uri load s u0 ▸ hru) he
        · exact ih'.1 res htail hru
      · rw [ih'.2]
        rcases processUri_scripts load s u0 with hs | hs
        · rw [hs]
        · rw [hs, List.count_append]
          simp [List.count_singleton', he]

/-- C3: the `newComponents` a script load resolves with are exactly the
component type names in the registry after `onload` that were absent from
the snapshot taken before the script element was appended, and
`totalComponents` is the registry's size after the load. -/
theorem c3_loadScript_registry_diff (uri : String)
    (before after : FormioRegistry) (c : String) :
    (c ∈ (loadScriptFromUri uri before after).newComponents ↔
      c ∈ getRegisteredComponents after ∧
        c ∉ getRegisteredComponents before) ∧
    (loadScriptFromUri uri before after).totalComponents =
      (getRegisteredComponents after).length := by
  refine ⟨?_, rfl⟩
  simp [loadScriptFromUri, List.mem_filter]

/-- C2 counterexample: "injects each external script URL at most once"
fails — a single call whose twice-listed URL fails to load appends two
script elements for that URL; and a URI whose in-flight promise rejects is
reported `error`, not `deduped`. -/
theorem c2_counterexample :
    ((loadExternalComponents (fun _ => .error "network error")
        ⟨[], [], []⟩ ["u", "u"]).1.scriptsCreated).count "u" = 2 ∧
    (processUri (fun _ => .error "x") ⟨[], [("v", .error "boom")], []⟩
        "v").2.status = .error ∧
    (processUri (fun _ => .error "x") ⟨[], [("v", .error "boom")], []⟩
        "v").2.status ≠ .deduped :=
  ⟨by decide, by decide, by decide⟩

/-- C2 (amended): a URL that already loaded successfully or is in flight
is never re-injected: a URI in `loadedComponents` is reported `cached` with
the recorded info and no script element is created for it during the call;
a URI with an in-flight promise is awaited instead of loaded again (no
script element), reported `deduped` with the recorded info when the promise
fulfils and `error` when it rejects. -/
theorem c2_loader_dedup (load : String → Except String CompInfo)
    (uris : List String) (s s2 s3 : LoaderState) (uri u2 u3 : String)
    (info i2 : CompInfo) (e : String) :
    (lookupL s.loadedComponents uri = some info →
      (∀ res ∈ (loadExternalComponents load s uris).2, res.uri = uri →
        res.status = .cached ∧ res.components = some info) ∧
      ((loadExternalComponents load s uris).1.scriptsCreated).count uri =
        (s.scriptsCreated).count uri) ∧
    (lookupL s2.loadedComponents u2 = none →
      lookupL s2.loadingPromises u2 = some (.ok i2) →
      (processUri load s2 u2).2.status = .deduped ∧
      (processUri load s2 u2).2.components = some i2 ∧
      (processUri load s2 u2).1.scriptsCreated = s2.scriptsCreated) ∧
    (lookupL s3.loadedComponents u3 = none →
      lookupL s3.loadingPromises u3 = some (.error e) →
      (processUri load s3 u3).2.status = .error ∧
      (processUri load s3 u3).1.scriptsCreated = s3.scriptsCreated) :=
  ⟨fun hc => loadExternal_cached load uris s uri info hc,
   fun h1 h2 => processUri_deduped load s2 u2 i2 h1 h2,
   fun h1 h2 => processUri_inflight_error load s3 u3 e h1 h2⟩

theorem c2_witness :
    (∀ res ∈ (loadExternalComponents (fun u => .ok ⟨u, [], 0⟩)
        witnessLoaderState ["a", "d"]).2, res.uri = "a" →
      res.status = .cached ∧ res.components = some ⟨"a", ["x"], 3⟩) ∧
    (processUri (fun u => .ok ⟨u, [], 0⟩) witnessLoaderState "b").2.status =
      .deduped ∧
    (processUri (fun u => .ok ⟨u, [], 0⟩) witnessLoaderState "c").2.status =
      .error := by
  have h := c2_loader_dedup (fun u => .ok ⟨u, [], 0⟩) ["a", "d"]
    witnessLoaderState witnessLoaderState witnessLoaderState "a" "b" "c"
    ⟨"a", ["x"], 3⟩ ⟨"b", ["y"], 4⟩ "boom"
  exact ⟨(h.1 rfl).1, (h.2.1 rfl rfl).1, (h.2.2 rfl rfl).1⟩


/-! ### Form store: claim C5 -/

theorem strAppend_ne_empty (p m : String) (hp : p.data ≠ []) : p ++ m ≠ "" := by
  intro h
  have hdata : (p ++ m).data = [] := by rw [h]
  rw [String.data_append] at hdata
  exact hp (List.append_eq_nil.mp hdata).1

theorem jsTruthyStr_append (p m : String) (hp : p.data ≠ []) :
    jsTruthyStr (some (p ++ m)) = true := by
  simp [jsTruthyStr, strAppend_ne_empty p m hp]

/-- C5: when a store fetch rejects, the error is caught and surfaced as a
single `Failed to fetch ...: <message>` string in the store error state,
the loading flag is reset, exactly one network call was made (no automatic
retry), the error panel with its retry button is rendered, and `retryLoad`
re-runs the whole initialization sequence from a reset store. -/
theorem c5_fetch_error_surfacing (cfg : FormConfig) (e : JsError)
    (s : StoreState) (mv : ModuleVersionEntry)
    (mvs : List ModuleVersionEntry) (fd : ChefsFormData)
    (envMode envUseLocal : String) (load : String → Except String CompInfo)
    (ls : LoaderState)
    (hcfg : isFullyConfigured cfg = true) :
    ((fetchFormModuleVersions cfg (.error e) s).state.error =
        some ("Failed to fetch form module versions: " ++ e.message) ∧
      (fetchFormModuleVersions cfg (.error e) s).state.loading = false ∧
      (fetchFormModuleVersions cfg (.error e) s).apiCalls = 1) ∧
    ((fetchFormSchema cfg (.error e) s).state.error =
        some ("Failed to fetch form schema: " ++ e.message) ∧
      (fetchFormSchema cfg (.error e) s).state.loading = false ∧
      (fetchFormSchema cfg (.error e) s).apiCalls = 1) ∧
    errorPanelShown (fetchFormModuleVersions cfg (.error e) s).state = true ∧
    errorPanelShown (fetchFormSchema cfg (.error e) s).state = true ∧
    ((retryLoad cfg (.ok (mv :: mvs)) (.ok fd) envMode envUseLocal load ls
        s).1.isFormReady = true ∧
      (retryLoad cfg (.ok (mv :: mvs)) (.ok fd) envMode envUseLocal load ls
        s).1.error = none ∧
      (retryLoad cfg (.ok (mv :: mvs)) (.ok fd) envMode envUseLocal load ls
        s).1.formSchema = some (extractFormSchema fd)) := by
  have hcfg' := hcfg
  simp only [isFullyConfigured, Bool.and_eq_true, Bool.not_eq_true',
    beq_eq_false_iff_ne] at hcfg
  obtain ⟨⟨⟨hbase, hfid⟩, hfvid⟩, hkey⟩ := hcfg
  have hguard : (cfg.formId == "" || cfg.formVersionId == "") = false := by
    simp [hfid, hfvid]
  refine ⟨?_, ?_, ?_, ?_, ?_⟩
  · simp [fetchFormModuleVersions, hguard]
  · simp [fetchFormSchema, hguard, getFormSchemaCalled, getFormSchema]
  · have ht := jsTruthyStr_append "Failed to fetch form module versions: "
      e.message (by decide)
    simpa [errorPanelShown, fetchFormModuleVersions, hguard] using ht
  · have ht := jsTruthyStr_append "Failed to fetch form schema: "
      e.message (by decide)
    simpa [errorPanelShown, fetchFormSchema, hguard, getFormSchemaCalled,
      getFormSchema] using ht
  · refine ⟨?_, ?_, ?_⟩ <;>
      simp [retryLoad, initializeFormData, initializeForm,
        fetchFormModuleVersions, fetchFormSchema, resetStore,
        getFormSchemaCalled, getFormSchema, loadExternalResources,
        hguard, hcfg']

theorem c5_witness :
    (fetchFormModuleVersions ⟨"f1", "v1", "k1", "http://api"⟩
        (.error ⟨"timeout"⟩) witnessStoreState).state.error =
      some ("Failed to fetch form module versions: " ++ "timeout") ∧
    (retryLoad ⟨"f1", "v1", "k1", "http://api"⟩ (.ok [⟨⟨[]⟩⟩])
        (.ok ⟨none, "body"⟩) "production" "" (fun _ => .error "x")
        ⟨[], [], []⟩ witnessStoreState).1.isFormReady = true := by
  have h := c5_fetch_error_surfacing ⟨"f1", "v1", "k1", "http://api"⟩
    ⟨"timeout"⟩ witnessStoreState ⟨⟨[]⟩⟩ [] ⟨none, "body"⟩ "production" ""
    (fun _ => .error "x") ⟨[], [], []⟩ (by decide)
  exact ⟨h.1.1, h.2.2.2.2.1⟩

end ChefsEmbed
